import Mathlib
/-!
Verification of the simple-ini-reader C library

Shallow embedding of `simple_ini_reader.h` (the single-file INI reader).
C strings are modelled as `List Char` (never containing `'\0'`); the
mutable buffer carving done with in-place `'\0'` writes in C is modelled
by returning the carved-out sublists.  C `int` indices are `Nat` (all
indices in the code are non-negative); the `-1` sentinel returned by
`sir__parse_to_char` is modelled with `Int`.  The per-document error
slot is modelled as an explicit state value threaded through the lookup
operations, recording both the final set/cleared state and the trace of
writes to the slot.
-/
set_option autoImplicit false
/-- Model of the C `SirOptions` bit set: one Bool per flag. -/
structure SirOptions where
  ignoreEmptyValues : Bool := false
  overrideDuplicateKeys : Bool := false
  disableQuotes : Bool := false
  disableHashComments : Bool := false
  disableColonAssignment : Bool := false
  disableCommentAnywhere : Bool := false
  disableCaseSensitivity : Bool := false
  disableErrors : Bool := false
  disableWarnings : Bool := false
deriving Repr, DecidableEq
/-- `SirSectionRange`: half-open run `[start, stop)` of flat key indices.
The C field `end` is renamed `stop` (`end` is a Lean keyword).  In C the
`end` field of a freshly created range is uninitialized until the range
is closed; the model initializes it to `0`, which is never observed
before the range is closed (see the parser below, which substitutes the
current key index for the still-open range exactly as the C code does). -/
structure SirSectionRange where
  start : Nat
  stop : Nat
deriving Repr, DecidableEq
/-- `SirSection`: the ordered range list of one section. -/
structure SirSection where
  ranges : List SirSectionRange
deriving Repr, DecidableEq
/-- Model of `SirIniStruct` (the fields the verified operations read).
`section_names` is parallel to `sections`; `key_names` parallel to
`key_values`. -/
structure SirIni where
  sections : List SirSection
  section_names : List (List Char)
  key_names : List (List Char)
  key_values : List (List Char)
  options : SirOptions
deriving Repr, DecidableEq
/-- `sir__to_lowercase` from the source (despite its name it maps
`'a'..'z'` to `'A'..'Z'`, i.e. `c - ('a' - 'A')`). -/
def sir__to_lowercase (c : Char) : Char :=
  if 'a' ≤ c ∧ c ≤ 'z' then Char.ofNat (c.toNat - 32) else c
/-- `sir__str_equal_case`: compares two strings char by char, folding
case when `case_insensitive` is set.  The final `*s1 == *s2` comparison
in C compares the terminators, i.e. both strings must end together. -/
def sir__str_equal_case : List Char → List Char → Bool → Bool
  | [], [], _ => true
  | [], _ :: _, _ => false
  | _ :: _, [], _ => false
  | c1 :: t1, c2 :: t2, ci =>
    let d1 := if ci then sir__to_lowercase c1 else c1
    let d2 := if ci then sir__to_lowercase c2 else c2
    d1 = d2 && sir__str_equal_case t1 t2 ci
/-- `sir__str_equal`: equality under the document's case option. -/
def sir__str_equal (ini : SirIni) (s1 s2 : List Char) : Bool :=
  sir__str_equal_case s1 s2 ini.options.disableCaseSensitivity
/-- Options-level variant used during parsing (the C code reads
`ini->options` which equals the `options` argument of the load call). -/
def sir__str_equal_opt (opts : SirOptions) (s1 s2 : List Char) : Bool :=
  sir__str_equal_case s1 s2 opts.disableCaseSensitivity
/-- `sir__is_comment_char` (with a non-null ini, as in the load path). -/
def sir__is_comment_char (opts : SirOptions) (c : Char) : Bool :=
  c = ';' || (!opts.disableHashComments && c = '#')
/-- `sir__is_assignment_char` (with a non-null ini). -/
def sir__is_assignment_char (opts : SirOptions) (c : Char) : Bool :=
  c = '=' || (!opts.disableColonAssignment && c = ':')
/-- The whitespace test used throughout the source: `*str <= ' '`
(on ASCII text; the embedding restricts itself to ASCII inputs). -/
def sirWs (c : Char) : Bool := c.toNat ≤ 32
/-- `sir__skip_whitespace`: number of leading whitespace chars. -/
def sir__skip_whitespace (l : List Char) : Nat :=
  (l.takeWhile sirWs).length
/-- `sir__trim_whitespace`: drop leading whitespace, then truncate the
trailing whitespace (the C code walks back from the end writing a
`'\0'`).  The C function has undefined behaviour on an all-whitespace
string; the model totalizes that case to `[]`. -/
def sir__trim_whitespace (l : List Char) : List Char :=
  let l' := l.dropWhile sirWs
  (l'.reverse.dropWhile sirWs).reverse
/-- `sir__skip_to_char`: index of the first occurrence of `c`, or the
length of the string when absent. -/
def sir__skip_to_char (l : List Char) (c : Char) : Nat :=
  (l.takeWhile (· ≠ c)).length
/-- `sir__parse_to_char`: returns the distance `n` to the first `c`
(as `Int`, with `-1` when `c` is absent) and the carved-out substring
(in C the `c` is overwritten by `'\0'`; when `c` is absent the parsed
string is the whole remainder).  The caller advances by `n + 1`. -/
def sir__parse_to_char (l : List Char) (c : Char) : Int × List Char :=
  if sir__skip_to_char l c = l.length then (-1, l)
  else ((sir__skip_to_char l c : Int), l.take (sir__skip_to_char l c))
/-- `sir__parse_to_assignment_char`: when colon assignment is disabled,
parse to `'='` only; otherwise parse to whichever of `'='` and `':'`
occurs first (the `a < b` test sends an exact tie — which can only mean
"neither found" — to the `':'` branch, with identical results). -/
def sir__parse_to_assignment_char (opts : SirOptions) (l : List Char) :
    Int × List Char :=
  if opts.disableColonAssignment then
    sir__parse_to_char l '='
  else if sir__skip_to_char l '=' < sir__skip_to_char l ':' then
    sir__parse_to_char l '='
  else
    sir__parse_to_char l ':'
/-- List update at an index (identity when out of range), as C's
`array[i] = f(array[i])`. -/
def listModify {α : Type} : List α → Nat → (α → α) → List α
  | [], _, _ => []
  | x :: xs, 0, f => f x :: xs
  | x :: xs, n + 1, f => x :: listModify xs n f
/-- Set the `stop` field of the last range of a list, as the C code's
`ranges[ranges_count - 1].end = key_index`. -/
def setStopLast : List SirSectionRange → Nat → List SirSectionRange
  | [], _ => []
  | [r], k => [{ r with stop := k }]
  | r :: r' :: rs, k => r :: setStopLast (r' :: rs) k
/-- Close the open (last) range of the section at index `i`:
`sections[i].ranges[ranges_count - 1].end = k`. -/
def closeRangeAt (ss : List SirSection) (i k : Nat) : List SirSection :=
  listModify ss i (fun sec => ⟨setStopLast sec.ranges k⟩)
/-- Append a fresh range `{start := k}` to the section at index `i`
(its `end` is uninitialized in C; `0` here, overwritten before use). -/
def appendRangeAt (ss : List SirSection) (i k : Nat) : List SirSection :=
  listModify ss i (fun sec => ⟨sec.ranges ++ [⟨k, 0⟩]⟩)
/-- The comment-blanking pass of `sir_load_from_str` (lines 793-814 of
the source): a comment marker (always `';'`; also `'#'` unless hash
comments are disabled) starts a blanked-out span up to the next newline
whenever comments are allowed anywhere, or when it stands at the start
of the buffer / right after a newline otherwise.  Every blanked char
becomes `' '`.  The section/key counting done in the same C loop only
pre-sizes allocations and needs no model.  `sir__stripGo` carries an
"inside a comment span" mode flag so that the recursion is structural
(and hence kernel-reducible); the `'\n'` ending a span is emitted as
itself, exactly as in C where the blanking loop stops before it. -/
def sir__stripGo (opts : SirOptions) :
    List Char → Bool → Bool → List Char
  | [], _, _ => []
  | c :: t, atStart, inComment =>
    if inComment then
      if c = '\n' then '\n' :: sir__stripGo opts t true false
      else ' ' :: sir__stripGo opts t atStart true
    else if sir__is_comment_char opts c && (!opts.disableCommentAnywhere || atStart) then
      ' ' :: sir__stripGo opts t false true
    else
      c :: sir__stripGo opts t (c = '\n') false
/-- The stripping pass proper: starts at the beginning of the buffer,
outside any comment. -/
def sir__strip (opts : SirOptions) (l : List Char) : List Char :=
  sir__stripGo opts l true false
/-- The state threaded through the structural parsing loop of
`sir_load_from_str`.  The flat key arrays grow only when a key is
accepted, so the C `key_index` counter is always `key_names.length`;
`section_index` of the C code is always `sections.length - 1`. -/
structure ParseState where
  sections : List SirSection
  section_names : List (List Char)
  key_names : List (List Char)
  key_values : List (List Char)
  prev_index : Nat
deriving Repr, DecidableEq
/-- The duplicate-section scan (source lines 960-971): the new header
name is compared against *every* section name recorded so far, in index
order, and the first match wins. -/
def sir__find_dup_section (opts : SirOptions) (names : List (List Char))
    (nm : List Char) : Option Nat :=
  (List.range names.length).find?
    (fun i => sir__str_equal_opt opts (names.getD i []) nm)
/-- One range of the duplicate-key scan: first index `j` in
`[start, stop)` whose stored key name equals `k`. -/
def sir__range_scan (opts : SirOptions) (knames : List (List Char))
    (k : List Char) (start stop : Nat) : Option Nat :=
  (List.range' start (stop - start)).find?
    (fun j => sir__str_equal_opt opts (knames.getD j []) k)
/-- The duplicate-key scan (source lines 1019-1043).  It walks the
ranges of `ini->sections[section_index]` — the most recently *created*
section, which is the currently open section only when no earlier
section has been reopened.  For every range but the last the stored
`end` is used; for the last range the current `key_index` is used.  The
inner `break` leaves the outer loop running, so a match in a later
range overwrites a match found in an earlier one. -/
def sir__find_dup_key (opts : SirOptions) (knames : List (List Char))
    (k : List Char) (kidx : Nat) :
    List SirSectionRange → Option Nat → Option Nat
  | [], dup => dup
  | [r], dup =>
    match sir__range_scan opts knames k r.start kidx with
    | some j => some j
    | none => dup
  | r :: r' :: rs, dup =>
    sir__find_dup_key opts knames k kidx (r' :: rs)
      (match sir__range_scan opts knames k r.start r.stop with
       | some j => some j
       | none => dup)
/-- Closing the open range of the currently open section
(`ini->sections[prev_index].ranges[ranges_count - 1].end = key_index`,
source lines 948-950 and 1112-1113). -/
def sir__close_range (st : ParseState) : ParseState :=
  { st with sections := closeRangeAt st.sections st.prev_index st.key_names.length }
/-- The section-header resolution step (source lines 959-1000): look
the trimmed header name up among all recorded section names; a match
reopens that section (appending a fresh range unless it is already the
open one), a miss appends a brand-new section. -/
def sir__header_step (opts : SirOptions) (st : ParseState) (nm : List Char) :
    ParseState :=
  match sir__find_dup_section opts st.section_names nm with
  | some d =>
    if d ≠ st.prev_index then
      { st with sections := appendRangeAt st.sections d st.key_names.length,
                prev_index := d }
    else { st with prev_index := d }
  | none =>
    { st with sections := st.sections ++ [⟨[⟨st.key_names.length, 0⟩]⟩],
              section_names := st.section_names ++ [nm],
              prev_index := st.sections.length }
/-- Applying a parsed key to the state (source lines 1086-1106):
discard when the value is empty under the ignore-empty option;
otherwise a detected duplicate is dropped (default) or overwritten in
place (override), and a fresh name/value pair is appended at the next
free index. -/
def sir__key_step (opts : SirOptions) (st : ParseState)
    (key_name key_value : List Char) (dup : Option Nat) : ParseState :=
  if key_value = [] && opts.ignoreEmptyValues then st
  else
    match dup with
    | some d =>
      if opts.overrideDuplicateKeys then
        { st with key_values := st.key_values.set d key_value }
      else st
    | none =>
      { st with key_names := st.key_names ++ [key_name],
                key_values := st.key_values ++ [key_value] }
/-- Value parsing for one key line (source lines 1045-1084): `l` is
the whole line text starting at the key name and `n` the result of the
assignment-character parse.  Returns the parsed value and the rest of
the buffer after the value.  With no assignment character the value is
the empty string (and the loop stops).  A quoted value (a `'"'` before
the next newline, unless quotes are disabled) is everything between
the first two quotes, untrimmed; an unquoted value runs to the next
newline and is trimmed.  When the closing delimiter is missing the C
code advances by `-1 + 1 = 0` characters. -/
def sir__parse_value (opts : SirOptions) (l : List Char) (n : Int) :
    List Char × List Char :=
  if n = -1 then ([], [])
  else
    let rest := l.drop (n.toNat + 1)
    let quoted := !opts.disableQuotes
      && (rest.takeWhile (· ≠ '\n')).any (· = '"')
    if quoted then
      let rest2 := rest.drop (sir__skip_to_char rest '"' + 1)
      let q := sir__parse_to_char rest2 '"'
      if q.1 = -1 then (q.2, rest2)
      else (q.2, rest2.drop (q.1.toNat + 1))
    else
      let q := sir__parse_to_char rest '\n'
      if q.1 = -1 then (sir__trim_whitespace q.2, rest)
      else (sir__trim_whitespace q.2, rest.drop (q.1.toNat + 1))
/-- The main parsing loop of `sir_load_from_str` (source lines
939-1110), fuel-indexed (the fuel passed by `sir_load_from_str` is
always sufficient; the C loop can fail to make progress only on a
quoted value with no closing quote, where the C code itself loops on
the same text).  Returns the state at the `break`/end of the loop,
before the final range close. -/
def sir__parse_loop (opts : SirOptions) : Nat → List Char → ParseState → ParseState
  | 0, _, st => st
  | fuel + 1, l, st =>
    match l.dropWhile sirWs with
    | [] => st
    | c :: t =>
      if c = '[' then
        if (sir__parse_to_char t ']').1 = -1 then
          sir__header_step opts (sir__close_range st)
            (sir__trim_whitespace (sir__parse_to_char t ']').2)
        else
          sir__parse_loop opts fuel
            (t.drop ((sir__parse_to_char t ']').1.toNat + 1))
            (sir__header_step opts (sir__close_range st)
              (sir__trim_whitespace (sir__parse_to_char t ']').2))
      else
        if (sir__parse_to_assignment_char opts (c :: t)).1 = -1 then
          sir__key_step opts st
            (sir__trim_whitespace (sir__parse_to_assignment_char opts (c :: t)).2)
            (sir__parse_value opts (c :: t)
              (sir__parse_to_assignment_char opts (c :: t)).1).1
            (sir__find_dup_key opts st.key_names
              (sir__trim_whitespace (sir__parse_to_assignment_char opts (c :: t)).2)
              st.key_names.length
              ((st.sections.getD (st.sections.length - 1) ⟨[]⟩).ranges) none)
        else
          sir__parse_loop opts fuel
            (sir__parse_value opts (c :: t)
              (sir__parse_to_assignment_char opts (c :: t)).1).2
            (sir__key_step opts st
              (sir__trim_whitespace (sir__parse_to_assignment_char opts (c :: t)).2)
              (sir__parse_value opts (c :: t)
                (sir__parse_to_assignment_char opts (c :: t)).1).1
              (sir__find_dup_key opts st.key_names
                (sir__trim_whitespace (sir__parse_to_assignment_char opts (c :: t)).2)
                st.key_names.length
                ((st.sections.getD (st.sections.length - 1) ⟨[]⟩).ranges) none))
/-- `sir_load_from_str`: comment-strip the buffer, seed the state with
the built-in global section (`{start := 0}` at index 0, reserved name
`"global"`), run the parsing loop, then close the open range of the
last open section (source line 1112).  The shrink-to-fit reallocation
is a no-op in the list model, whose arrays hold exactly the accepted
entries. -/
def sir_load_from_str (s : List Char) (opts : SirOptions) : SirIni :=
  let d := sir__strip opts s
  let st0 : ParseState :=
    { sections := [⟨[⟨0, 0⟩]⟩], section_names := ["global".data],
      key_names := [], key_values := [], prev_index := 0 }
  let st := sir__parse_loop opts (d.length + 1) d st0
  let st := sir__close_range st
  { sections := st.sections, section_names := st.section_names,
    key_names := st.key_names, key_values := st.key_values, options := opts }
/-- One write to the per-document error slot. -/
inductive SirErrEvent
  | clear
  | set
deriving Repr, DecidableEq
/-- The error slot of a document: its current state (`err` = a message
is present) and the trace of writes performed on it. -/
structure SirErrState where
  err : Bool
  trace : List SirErrEvent
deriving Repr, DecidableEq
/-- `sir__errors_enabled`. -/
def sir__errors_enabled (ini : SirIni) : Bool :=
  !ini.options.disableErrors
/-- `sir__set_error`: writes a message into the slot — a no-op when
error tracking is disabled (the message text is not modelled). -/
def sir__set_error (ini : SirIni) (e : SirErrState) : SirErrState :=
  if sir__errors_enabled ini then ⟨true, e.trace ++ [.set]⟩ else e
/-- `sir__clear_error_str`: empties the slot — a no-op when error
tracking is disabled. -/
def sir__clear_error_str (ini : SirIni) (e : SirErrState) : SirErrState :=
  if sir__errors_enabled ini then ⟨false, e.trace ++ [.clear]⟩ else e
/-- `sir_has_error`: errors enabled and the slot holds a message. -/
def sir_has_error (ini : SirIni) (e : SirErrState) : Bool :=
  sir__errors_enabled ini && e.err
/-- `sir__get_section` (source lines 1217-1240): `none` models both the
C null argument and the C null return.  Scans the section names in
index order and resolves to the first match; clears the error slot on
success, sets it on a null argument or a miss.  The returned index
stands for the returned `&ini->sections[i]` pointer. -/
def sir__get_section (ini : SirIni) (section_name : Option (List Char))
    (e : SirErrState) : Option Nat × SirErrState :=
  match section_name with
  | none => (none, sir__set_error ini e)
  | some nm =>
    match (List.range ini.section_names.length).find?
        (fun i => sir__str_equal ini (ini.section_names.getD i []) nm) with
    | some i => (some i, sir__clear_error_str ini e)
    | none => (none, sir__set_error ini e)
/-- The section-scoped key scan of `sir_section_str` (lines 1337-1351):
walk the section's ranges in order, the stored `[start, end)` span of
each in index order, and return the first index whose stored key name
matches. -/
def sir__find_in_ranges (ini : SirIni) (k : List Char) :
    List SirSectionRange → Option Nat
  | [] => none
  | r :: rs =>
    match (List.range' r.start (r.stop - r.start)).find?
        (fun j => sir__str_equal ini (ini.key_names.getD j []) k) with
    | some j => some j
    | none => sir__find_in_ranges ini k rs
/-- The section-less scan of `sir_section_str` (lines 1360-1377): walk
the whole flat key array in index order; under the default policy
return the first match immediately, under the override policy remember
the latest match and keep scanning. -/
def sir__global_scan (ini : SirIni) (k : List Char) :
    List Nat → Option (List Char) → Option (List Char)
  | [], acc => acc
  | j :: js, acc =>
    if sir__str_equal ini (ini.key_names.getD j []) k then
      if ini.options.overrideDuplicateKeys then
        sir__global_scan ini k js (some (ini.key_values.getD j []))
      else
        some (ini.key_values.getD j [])
    else
      sir__global_scan ini k js acc
/-- `sir_section_str` (source lines 1310-1388).  A `none` result models
the C null return.  With a section name: resolve the section (returning
early if that left an error); a resolved section is scanned range by
range; when error tracking is disabled a failed resolution falls
through to the section-less scan (the C `section` pointer is null and
`sir_has_error` is constantly false).  Without a section name: scan the
entire flat key array. -/
def sir_section_str (ini : SirIni) (section_name key_name : Option (List Char))
    (e : SirErrState) : Option (List Char) × SirErrState :=
  match key_name with
  | none => (none, sir__set_error ini e)
  | some k =>
    let resolved : Option Nat × SirErrState :=
      match section_name with
      | some _ => sir__get_section ini section_name e
      | none => (none, e)
    if sir_has_error ini resolved.2 && section_name.isSome then
      (none, resolved.2)
    else
      match resolved.1 with
      | some si =>
        match sir__find_in_ranges ini k (ini.sections.getD si ⟨[]⟩).ranges with
        | some j => (some (ini.key_values.getD j []), sir__clear_error_str ini resolved.2)
        | none => (none, sir__set_error ini resolved.2)
      | none =>
        match sir__global_scan ini k (List.range ini.key_names.length) none with
        | some v => (some v, sir__clear_error_str ini resolved.2)
        | none => (none, sir__set_error ini resolved.2)
/-- The empty error slot a freshly loaded document starts with
(`sir_load_from_str` ends with `sir__clear_error_str`; the trace is
truncated to start the observation window at the operation under
test). -/
def sirErr0 : SirErrState := ⟨false, []⟩
/-- C-locale `isspace`, as used by `strtol`/`strtoul` (note: narrower
than the `<= ' '` whitespace test used elsewhere in the library). -/
def c_isspace (c : Char) : Bool :=
  c = ' ' || c = '\t' || c = '\n' || c = '\x0b' || c = '\x0c' || c = '\r'
/-- Decimal digit test. -/
def isDecDigit (c : Char) : Bool := '0' ≤ c && c ≤ '9'
/-- Octal digit test. -/
def isOctDigit (c : Char) : Bool := '0' ≤ c && c ≤ '7'
/-- Hexadecimal digit test. -/
def isHexDigitC (c : Char) : Bool :=
  isDecDigit c || ('a' ≤ c && c ≤ 'f') || ('A' ≤ c && c ≤ 'F')
/-- Numeric value of a digit char (hex-aware). -/
def digitVal (c : Char) : Nat :=
  if isDecDigit c then c.toNat - '0'.toNat
  else if 'a' ≤ c && c ≤ 'f' then c.toNat - 'a'.toNat + 10
  else if 'A' ≤ c && c ≤ 'F' then c.toNat - 'A'.toNat + 10
  else 0
/-- Value of a digit string in the given base. -/
def digitsVal (base : Nat) (ds : List Char) : Nat :=
  ds.foldl (fun a c => a * base + digitVal c) 0
/-- Outcome of `strtol`/`strtoul` scanning with base 0: whether any
digits were consumed (`endptr != str`), the sign, and the magnitude of
the parsed number (before any range clamping). -/
structure CNumScan where
  consumed : Bool
  neg : Bool
  mag : Nat
deriving Repr, DecidableEq
/-- The common `strtol`/`strtoul` scan with base 0 (ISO C): optional
`isspace` run, optional single sign, then `0x`/`0X` hexadecimal (only
when a hex digit follows), octal on a leading `0`, decimal otherwise. -/
def cNumScan (l : List Char) : CNumScan :=
  let l1 := l.dropWhile c_isspace
  let sgn : Bool × List Char :=
    match l1 with
    | '-' :: t => (true, t)
    | '+' :: t => (false, t)
    | _ => (false, l1)
  match sgn.2 with
  | '0' :: c :: rest =>
    if (c = 'x' || c = 'X') && isHexDigitC (rest.headD 'z') then
      ⟨true, sgn.1, digitsVal 16 (rest.takeWhile isHexDigitC)⟩
    else
      ⟨true, sgn.1, digitsVal 8 ('0' :: (c :: rest).takeWhile isOctDigit)⟩
  | '0' :: [] => ⟨true, sgn.1, 0⟩
  | l2 =>
    let ds := l2.takeWhile isDecDigit
    ⟨!ds.isEmpty, sgn.1, digitsVal 10 ds⟩
/-- `LONG_MAX` for the 64-bit `long` of the reference platform. -/
def sirLONG_MAX : Int := 2 ^ 63 - 1
/-- `LONG_MIN`. -/
def sirLONG_MIN : Int := -(2 ^ 63)
/-- `ULONG_MAX`. -/
def sirULONG_MAX : Nat := 2 ^ 64 - 1
/-- `strtol(str, &endptr, 0)`: `(endptr != str, errno == ERANGE, value)`
with the out-of-range value clamped to `LONG_MAX`/`LONG_MIN`. -/
def sir_strtol (l : List Char) : Bool × Bool × Int :=
  let s := cNumScan l
  let v : Int := if s.neg then -(s.mag : Int) else (s.mag : Int)
  if v > sirLONG_MAX then (s.consumed, true, sirLONG_MAX)
  else if v < sirLONG_MIN then (s.consumed, true, sirLONG_MIN)
  else (s.consumed, false, v)
/-- `strtoul(str, &endptr, 0)`: `(endptr != str, errno == ERANGE, value)`
with a negative sign applying modular negation and out-of-range
magnitudes clamped to `ULONG_MAX`. -/
def sir_strtoul (l : List Char) : Bool × Bool × Nat :=
  let s := cNumScan l
  if s.mag > sirULONG_MAX then (s.consumed, true, sirULONG_MAX)
  else if s.neg then (s.consumed, false, (2 ^ 64 - s.mag % 2 ^ 64) % 2 ^ 64)
  else (s.consumed, false, s.mag)
/-- `sir_section_long` (source lines 1390-1435): look the value up,
return 0 untouched on a lookup failure, then convert with `strtol`,
reporting `ERANGE` and no-digits failures through the error slot. -/
def sir_section_long (ini : SirIni) (section_name key_name : Option (List Char))
    (e : SirErrState) : Int × SirErrState :=
  let s := sir_section_str ini section_name key_name e
  if sir_has_error ini s.2 || s.1.isNone then (0, s.2)
  else
    let r := sir_strtol (s.1.getD [])
    if r.2.1 then (0, sir__set_error ini s.2)
    else if !r.1 then (0, sir__set_error ini s.2)
    else (r.2.2, s.2)
/-- `sir_section_unsigned_long` (source lines 1437-1468; note the C
return type is `long`). -/
def sir_section_unsigned_long (ini : SirIni)
    (section_name key_name : Option (List Char)) (e : SirErrState) :
    Nat × SirErrState :=
  let s := sir_section_str ini section_name key_name e
  if sir_has_error ini s.2 || s.1.isNone then (0, s.2)
  else
    let r := sir_strtoul (s.1.getD [])
    if r.2.1 then (0, sir__set_error ini s.2)
    else if !r.1 then (0, sir__set_error ini s.2)
    else (r.2.2, s.2)
/-- The boolean-literal stage of `sir_section_bool` (source lines
1532-1550): skip whitespace, then compare the first 4 (resp. 5)
characters against `"true"` (resp. `"false"`), always
case-insensitively (the C code passes a literal `1` to
`sir__str_equal_case`).  Returns `1`/`0`, or `-1` for neither. -/
def sir__bool_from_str (v : List Char) : Int :=
  let str := v.dropWhile sirWs
  if sir__str_equal_case (str.take 4) "true".data true then 1
  else if sir__str_equal_case (str.take 5) "false".data true then 0
  else -1
/-- `sir_section_bool` (source lines 1517-1551): first try the numeric
conversion (`1` iff nonzero); if that left an error, re-look the value
up and fall back to the prefix literal match, setting the error slot
when neither literal matches. -/
def sir_section_bool (ini : SirIni) (section_name key_name : Option (List Char))
    (e : SirErrState) : Int × SirErrState :=
  let lr := sir_section_long ini section_name key_name e
  if !(sir_has_error ini lr.2) then
    (if lr.1 ≠ 0 then 1 else 0, lr.2)
  else
    let s := sir_section_str ini section_name key_name lr.2
    if sir_has_error ini s.2 || s.1.isNone then (-1, s.2)
    else
      let b := sir__bool_from_str (s.1.getD [])
      if b = -1 then (-1, sir__set_error ini s.2) else (b, s.2)
/-- The splitting loop of `sir_section_csv` (source lines 1577-1595):
runs exactly `csv_size` times; each field skips its leading whitespace
and extends to the next `','` (where the C code writes a `'\0'`),
keeping any trailing whitespace before the comma. -/
def sir__csv_loop : Nat → List Char → List (List Char)
  | 0, _ => []
  | k + 1, rem =>
    ((rem.dropWhile sirWs).takeWhile (· ≠ ',')) ::
      sir__csv_loop k ((rem.dropWhile sirWs).drop
        (((rem.dropWhile sirWs).takeWhile (· ≠ ',')).length + 1))
/-- The pure string part of `sir_section_csv` (source lines 1561-1595):
skip leading whitespace, trim the copy, count commas (`csv_size` is one
more than the comma count), then split. -/
def sir__csv_split (v : List Char) : List (List Char) :=
  let s := sir__trim_whitespace (v.dropWhile sirWs)
  sir__csv_loop (1 + s.count ',') s
/-- `sir_section_csv` (source lines 1553-1600): `none` models the C
null return; the returned `csv_size` is the length of the list. -/
def sir_section_csv (ini : SirIni) (section_name key_name : Option (List Char))
    (e : SirErrState) : Option (List (List Char)) × SirErrState :=
  let s := sir_section_str ini section_name key_name e
  if sir_has_error ini s.2 || s.1.isNone then (none, s.2)
  else (some (sir__csv_split (s.1.getD [])), s.2)
/-- `sir__section_key_array` (source lines 1242-1289): resolve the
section, then copy `array[j]` for every index of every range into a
fresh array.  When error tracking is disabled and the section is
missing, the C code dereferences the null `section` pointer (undefined
behaviour); the model returns `none` there and no theorem relies on
that branch. -/
def sir__section_key_array (ini : SirIni) (section_name : Option (List Char))
    (arr : List (List Char)) (e : SirErrState) :
    Option (List (List Char)) × SirErrState :=
  match section_name with
  | none => (none, sir__set_error ini e)
  | some _ =>
    let g := sir__get_section ini section_name e
    if sir_has_error ini g.2 then (none, g.2)
    else
      match g.1 with
      | some si =>
        let rs := (ini.sections.getD si ⟨[]⟩).ranges
        (some (rs.flatMap (fun r =>
            (List.range' r.start (r.stop - r.start)).map (fun j => arr.getD j []))),
          sir__clear_error_str ini g.2)
      | none => (none, g.2)
/-- `sir_section_key_names`. -/
def sir_section_key_names (ini : SirIni) (section_name : Option (List Char))
    (e : SirErrState) : Option (List (List Char)) × SirErrState :=
  sir__section_key_array ini section_name ini.key_names e
/-- `sir_section_key_values`. -/
def sir_section_key_values (ini : SirIni) (section_name : Option (List Char))
    (e : SirErrState) : Option (List (List Char)) × SirErrState :=
  sir__section_key_array ini section_name ini.key_values e
/-- Position of the earliest enabled assignment character in `l`
(spec-side; `l.length` when none is present). -/
def sirAsgPos (opts : SirOptions) (l : List Char) : Nat :=
  if opts.disableColonAssignment then sir__skip_to_char l '='
  else min (sir__skip_to_char l '=') (sir__skip_to_char l ':')
/-- Indices of the flat key array whose stored name matches `k` under
the document's case option (spec-side description of the scan). -/
def sirMatchIdxs (ini : SirIni) (k : List Char) : List Nat :=
  (List.range ini.key_names.length).filter
    (fun j => sir__str_equal ini (ini.key_names.getD j []) k)
/-- Example document for the C5 witness: the same key name in the
global section and in a named section. -/
def iniC5 : SirIni := sir_load_from_str "k=1\n[s]\nk=2\n".data {}
/-- Spec-side comma split: the segments of a string between its
commas (one more segment than commas, empty segments included). -/
def sirSplitCommas : List Char → List (List Char)
  | [] => [[]]
  | c :: t =>
    if c = ',' then [] :: sirSplitCommas t
    else
      match sirSplitCommas t with
      | f :: rest => (c :: f) :: rest
      | [] => [[c]]
/-- Error-state-free description of `sir_section_long`'s result and
final error flag (spec-side). -/
def sirLongSpec (ini : SirIni) (sn kn : Option (List Char)) : Int × Bool :=
  match (sir_section_str ini sn kn sirErr0).1 with
  | none => (0, true)
  | some v =>
    (if (sir_strtol v).2.1 then 0
     else if !(sir_strtol v).1 then 0
     else (sir_strtol v).2.2,
     (sir_strtol v).2.1 || !(sir_strtol v).1)
/-- Error-state-free description of `sir_section_unsigned_long`. -/
def sirULongSpec (ini : SirIni) (sn kn : Option (List Char)) : Nat × Bool :=
  match (sir_section_str ini sn kn sirErr0).1 with
  | none => (0, true)
  | some v =>
    (if (sir_strtoul v).2.1 then 0
     else if !(sir_strtoul v).1 then 0
     else (sir_strtoul v).2.2,
     (sir_strtoul v).2.1 || !(sir_strtoul v).1)
/-- Error-state-free description of `sir_section_bool`. -/
def sirBoolSpec (ini : SirIni) (sn kn : Option (List Char)) : Int × Bool :=
  match (sir_section_str ini sn kn sirErr0).1 with
  | none => (-1, true)
  | some v =>
    if !((sir_strtol v).2.1 || !(sir_strtol v).1) then
      (if (sir_strtol v).2.2 ≠ 0 then 1 else 0, false)
    else if sir__bool_from_str v = -1 then (-1, true)
    else (sir__bool_from_str v, false)
/-- Error-state-free description of `sir_section_csv`. -/
def sirCsvSpec (ini : SirIni) (sn kn : Option (List Char)) :
    Option (List (List Char)) × Bool :=
  match (sir_section_str ini sn kn sirErr0).1 with
  | none => (none, true)
  | some v => (some (sir__csv_split v), false)
/-- Case-insensitive prefix test (spec-side): `p` is a prefix of `s`
after folding both through the library's case-folding map. -/
def sirCIPrefixOf (p s : List Char) : Bool :=
  (p.map sir__to_lowercase).isPrefixOf (s.map sir__to_lowercase)
/-- The parser invariant behind claim C10: the reserved name
`"global"` sits at index 0 of the section-name list and no later
section name matches it under the parse options. -/
def NamesInv (opts : SirOptions) (names : List (List Char)) : Prop :=
  names.getD 0 [] = "global".data
  ∧ ∀ i, 0 < i → i < names.length →
      sir__str_equal_opt opts ("global".data) (names.getD i []) = false
example : sir__parse_to_assignment_char {} "ab=c".data = (2, "ab".data) := by decide
example : sir__parse_to_assignment_char {} "a:b=c".data = (1, "a".data) := by decide
example : sir__parse_to_assignment_char { disableColonAssignment := true } "a:b=c".data
    = (3, "a:b".data) := by decide
example : sir__parse_to_assignment_char {} "abc".data = (-1, "abc".data) := by decide
example : sir__trim_whitespace "  a b  ".data = "a b".data := by decide
example : sir__str_equal_case "TRUE".data "true".data true = true := by decide
example : sir__str_equal_case "TRUE".data "true".data false = false := by decide
example :
    (sir_section_str (sir_load_from_str "a=1\n[ s1 ]\na=3\n".data {})
      (some "s1".data) (some "a".data) sirErr0).1 = some "3".data := by decide
example :
    (sir_section_str (sir_load_from_str "a=1\n[ s1 ]\na=3\n".data {})
      none (some "a".data) sirErr0).1 = some "1".data := by decide
example :
    (sir_section_str (sir_load_from_str "a=1\n[ s1 ]\na=3\n".data {})
      (some "s2".data) (some "a".data) sirErr0)
      = (none, ⟨true, [.set]⟩) := by decide
example : sir_strtol "  -42xy".data = (true, false, -42) := by decide
example : sir_strtol "0x1f".data = (true, false, 31) := by decide
example : sir_strtol "077".data = (true, false, 63) := by decide
example : sir_strtol "true".data = (false, false, 0) := by decide
example : sir__bool_from_str " TrueXYZ".data = 1 := by decide
example : sir__bool_from_str "falsehood".data = 0 := by decide
example : sir__bool_from_str "tru".data = -1 := by decide
example : sir__csv_split "a, b ,c".data = ["a".data, "b ".data, "c".data] := by decide
example :
    (sir_section_bool (sir_load_from_str "k=TrueXYZ\n".data {})
      none (some "k".data) sirErr0).1 = 1 := by decide
example :
    (sir_section_bool (sir_load_from_str "k=TrueXYZ\n".data { disableErrors := true })
      none (some "k".data) sirErr0).1 = 0 := by decide
example :
    (sir_section_bool (sir_load_from_str "k=xyz\n".data {})
      none (some "k".data) sirErr0).2.trace
      = [.clear, .set, .clear, .set] := by decide
lemma toNat_ofNat_small {n : Nat} (h : n < 0xd800) : (Char.ofNat n).toNat = n := by
  unfold Char.ofNat
  rw [dif_pos (Or.inl h)]
  simp [Char.ofNatAux, Char.toNat, UInt32.toNat]
lemma char_le_iff {a c : Char} : a ≤ c ↔ a.toNat ≤ c.toNat := by
  simp [Char.le_def, UInt32.le_def, BitVec.le_def, Char.toNat, UInt32.toNat]
lemma char_eq_iff {a c : Char} : a = c ↔ a.toNat = c.toNat := by
  constructor
  · intro h; rw [h]
  · intro h
    exact Char.eq_of_val_eq (UInt32.toNat.inj h)
lemma toLower_toNat (c : Char) :
    (sir__to_lowercase c).toNat =
      if 97 ≤ c.toNat ∧ c.toNat ≤ 122 then c.toNat - 32 else c.toNat := by
  have ha : ('a' ≤ c) ↔ (97 ≤ c.toNat) := by
    rw [show (97 : Nat) = 'a'.toNat from rfl]; exact char_le_iff
  have hz : (c ≤ 'z') ↔ (c.toNat ≤ 122) := by
    rw [show (122 : Nat) = 'z'.toNat from rfl]; exact char_le_iff
  unfold sir__to_lowercase
  split
  · next h =>
    have h1 := ha.mp h.1
    have h2 := hz.mp h.2
    rw [if_pos ⟨h1, h2⟩]
    exact toNat_ofNat_small (by omega)
  · next h =>
    rw [if_neg (fun hc => h ⟨ha.mpr hc.1, hz.mpr hc.2⟩)]
lemma sirWs_toLower (c : Char) : sirWs (sir__to_lowercase c) = sirWs c := by
  simp only [sirWs, toLower_toNat]
  split
  · next h => exact decide_eq_decide.mpr (by omega)
  · rfl
lemma toLower_idem (c : Char) :
    sir__to_lowercase (sir__to_lowercase c) = sir__to_lowercase c := by
  rw [char_eq_iff, toLower_toNat, toLower_toNat]
  split
  · next h => rw [if_neg (by omega)]
  · rfl
lemma str_equal_case_false_iff (s t : List Char) :
    sir__str_equal_case s t false = decide (s = t) := by
  induction s generalizing t with
  | nil => cases t <;> simp [sir__str_equal_case]
  | cons c s ih =>
    cases t with
    | nil => simp [sir__str_equal_case]
    | cons d t => simp [sir__str_equal_case, ih]
lemma str_equal_case_true_iff (s t : List Char) :
    sir__str_equal_case s t true
      = decide (s.map sir__to_lowercase = t.map sir__to_lowercase) := by
  induction s generalizing t with
  | nil => cases t <;> simp [sir__str_equal_case]
  | cons c s ih =>
    cases t with
    | nil => simp [sir__str_equal_case]
    | cons d t => simp [sir__str_equal_case, ih]
lemma bool_from_str_toLower (v : List Char) :
    sir__bool_from_str (v.map sir__to_lowercase) = sir__bool_from_str v := by
  have hp : (sirWs ∘ sir__to_lowercase) = sirWs := funext sirWs_toLower
  have hdw : (v.map sir__to_lowercase).dropWhile sirWs
      = (v.dropWhile sirWs).map sir__to_lowercase := by
    rw [List.dropWhile_map, hp]
  have hmm : ((v.dropWhile sirWs).take 4).map (sir__to_lowercase ∘ sir__to_lowercase)
      = ((v.dropWhile sirWs).take 4).map sir__to_lowercase := by
    apply List.map_congr_left; intro c _; exact toLower_idem c
  have hmm5 : ((v.dropWhile sirWs).take 5).map (sir__to_lowercase ∘ sir__to_lowercase)
      = ((v.dropWhile sirWs).take 5).map sir__to_lowercase := by
    apply List.map_congr_left; intro c _; exact toLower_idem c
  simp only [sir__bool_from_str, hdw, ← List.map_take, str_equal_case_true_iff,
    List.map_map, hmm, hmm5]
/-- Claim C1 (code bug, evaluation at the failing input): the
duplicate-key scan reads `ini->sections[section_index]` — the most
recently *created* section — instead of the currently open section
`prev_index`.  On `"[a]\nx=1\n[b]\ny=2\n[a]\ny=3\n"` the key `y=3` in
the reopened section `a` is treated as a duplicate of section `b`'s
`y`: under the default policy it is silently dropped (only two keys are
stored and the scoped lookup of `y` in `a` fails), and under the
override policy it overwrites section `b`'s value of `y` with `"3"`.
The claim — and the library's own `duplicates` sample, which states
that duplicate handling applies to "a previous key in the same
section" — requires `y=3` to be stored under `a` instead. -/
theorem C1_dup_key_scan_uses_last_created_section :
    ((sir_load_from_str "[a]\nx=1\n[b]\ny=2\n[a]\ny=3\n".data {}).key_names
        = ["x".data, "y".data]
      ∧ (sir_section_str (sir_load_from_str "[a]\nx=1\n[b]\ny=2\n[a]\ny=3\n".data {})
          (some "a".data) (some "y".data) sirErr0).1 = none)
    ∧ (sir_section_str
        (sir_load_from_str "[a]\nx=1\n[b]\ny=2\n[a]\ny=3\n".data
          { overrideDuplicateKeys := true })
        (some "b".data) (some "y".data) sirErr0).1 = some "3".data := by
  decide
/-- Claim C2 (counterexample): with the case-sensitivity option unset
(default options, i.e. case-sensitive matching), `sir_section_bool`
still matches the literal `"TRUE"` case-insensitively and returns `1`,
even though a case-sensitive comparison of `"TRUE"` with `"true"` and
`"false"` fails — so the boolean-literal comparison does not follow the
Document's case-sensitivity option, refuting the claimed uniformity. -/
theorem C2_bool_literal_case_counterexample :
    (sir_load_from_str "k=TRUE\n".data {}).options.disableCaseSensitivity = false
    ∧ (sir_section_bool (sir_load_from_str "k=TRUE\n".data {})
        none (some "k".data) sirErr0).1 = 1
    ∧ sir__str_equal_case "TRUE".data "true".data false = false
    ∧ sir__str_equal_case "TRUE".data "false".data false = false := by
  decide
/-- Claim C2 (amended): section-name and key-name matching go through
`sir__str_equal`, which follows the Document's case-sensitivity option
(comparison with the flag unset is plain equality, with the flag set it
is equality after case folding), but the boolean-literal stage of
`sir_section_bool` is *always* case-insensitive — it is invariant under
case folding of the value — regardless of the option. -/
theorem C2_case_sensitivity_amended :
    (∀ s t : List Char, sir__str_equal_case s t false = decide (s = t))
    ∧ (∀ s t : List Char, sir__str_equal_case s t true
        = decide (s.map sir__to_lowercase = t.map sir__to_lowercase))
    ∧ (∀ (ini : SirIni) (s t : List Char), sir__str_equal ini s t
        = sir__str_equal_case s t ini.options.disableCaseSensitivity)
    ∧ (∀ v : List Char,
        sir__bool_from_str (v.map sir__to_lowercase) = sir__bool_from_str v) :=
  ⟨str_equal_case_false_iff, str_equal_case_true_iff,
    fun _ _ _ => rfl, bool_from_str_toLower⟩
/-- Claim C4: `key=foo` then `key=bar` in one section.  Under the
default policy the flat arrays keep only the first occurrence (`bar` is
neither stored nor counted) and the scoped lookup returns `"foo"`;
under the override policy the value is overwritten in place at the
first occurrence's index (the key arrays still hold exactly one entry,
at the same index) and the scoped lookup returns `"bar"`. -/
theorem C4_duplicate_key_policies :
    ((sir_load_from_str "[s]\nk=foo\nk=bar\n".data {}).key_names = ["k".data]
      ∧ (sir_load_from_str "[s]\nk=foo\nk=bar\n".data {}).key_values = ["foo".data]
      ∧ (sir_section_str (sir_load_from_str "[s]\nk=foo\nk=bar\n".data {})
          (some "s".data) (some "k".data) sirErr0).1 = some "foo".data)
    ∧ ((sir_load_from_str "[s]\nk=foo\nk=bar\n".data
          { overrideDuplicateKeys := true }).key_names = ["k".data]
      ∧ (sir_load_from_str "[s]\nk=foo\nk=bar\n".data
          { overrideDuplicateKeys := true }).key_values = ["bar".data]
      ∧ (sir_section_str (sir_load_from_str "[s]\nk=foo\nk=bar\n".data
            { overrideDuplicateKeys := true })
          (some "s".data) (some "k".data) sirErr0).1 = some "bar".data) := by
  decide
lemma find?_range_eq_none_iff (p : Nat → Bool) (n : Nat) :
    (List.range n).find? p = none ↔ ∀ i < n, p i = false := by
  rw [List.find?_eq_none]
  constructor
  · intro h i hi
    have := h i (List.mem_range.mpr hi)
    simpa using this
  · intro h x hx
    simp [h x (List.mem_range.mp hx)]
lemma find?_range_eq_some (p : Nat → Bool) :
    ∀ {n i : Nat}, (List.range n).find? p = some i →
      i < n ∧ p i = true ∧ ∀ j < i, p j = false := by
  intro n
  induction n with
  | zero => intro i h; simp [List.range_zero] at h
  | succ n ih =>
    intro i h
    rw [List.range_succ, List.find?_append] at h
    cases hfn : (List.range n).find? p with
    | some i' =>
      rw [hfn, Option.or_some] at h
      obtain rfl : i' = i := by simpa using h
      obtain ⟨h1, h2, h3⟩ := ih hfn
      exact ⟨Nat.lt_succ_of_lt h1, h2, h3⟩
    | none =>
      rw [hfn, Option.none_or, List.find?_singleton] at h
      by_cases hp : p n
      · rw [if_pos hp] at h
        obtain rfl : n = i := by simpa using h
        refine ⟨Nat.lt_succ_self _, hp, fun j hj => ?_⟩
        have := (find?_range_eq_none_iff p n).mp hfn
        exact this j hj
      · rw [if_neg hp] at h
        simp at h
/-- Claim C3: the duplicate-section scan compares the new header name
with *every* section name recorded so far (first match wins; a miss
means no recorded name matches), and concretely on
`"[a]\np=1\n[b]\nq=2\n[a]\nr=3\n"` parsing yields exactly one section
named `a` (section names `global`, `a`, `b`), holding two ranges, and
the key `r` from the second occurrence of `[a]` is found by the
section-scoped lookup for `a`. -/
theorem C3_reopened_section_merges :
    (∀ (opts : SirOptions) (names : List (List Char)) (nm : List Char),
      (sir__find_dup_section opts names nm = none ↔
        ∀ i < names.length, sir__str_equal_opt opts (names.getD i []) nm = false)
      ∧ ∀ i, sir__find_dup_section opts names nm = some i →
          i < names.length ∧ sir__str_equal_opt opts (names.getD i []) nm = true
          ∧ ∀ j < i, sir__str_equal_opt opts (names.getD j []) nm = false)
    ∧ ((sir_load_from_str "[a]\np=1\n[b]\nq=2\n[a]\nr=3\n".data {}).section_names
        = ["global".data, "a".data, "b".data]
      ∧ ((sir_load_from_str "[a]\np=1\n[b]\nq=2\n[a]\nr=3\n".data {}).sections.getD 1
            ⟨[]⟩).ranges.length = 2
      ∧ (sir_section_str (sir_load_from_str "[a]\np=1\n[b]\nq=2\n[a]\nr=3\n".data {})
          (some "a".data) (some "r".data) sirErr0).1 = some "3".data) := by
  refine ⟨fun opts names nm => ⟨find?_range_eq_none_iff _ _, fun i h => find?_range_eq_some _ h⟩, ?_⟩
  decide
/-- Witness for C3: the scan over `["global", "a"]` looking for `"a"`
resolves to index 1, which matches while index 0 does not. -/
theorem C3_reopened_section_merges_witness :
    1 < (["global".data, "a".data] : List (List Char)).length
    ∧ sir__str_equal_opt {} ((["global".data, "a".data] : List (List Char)).getD 1 []) "a".data = true
    ∧ ∀ j < 1, sir__str_equal_opt {} ((["global".data, "a".data] : List (List Char)).getD j []) "a".data = false :=
  (C3_reopened_section_merges.1 {} ["global".data, "a".data] "a".data).2 1 (by decide)
lemma is_assignment_eq_false {opts : SirOptions} {c : Char}
    (h1 : c ≠ '=') (h2 : opts.disableColonAssignment = true ∨ c ≠ ':') :
    sir__is_assignment_char opts c = false := by
  unfold sir__is_assignment_char
  rcases h2 with h2 | h2 <;> simp [h1, h2]
lemma is_assignment_equals (opts : SirOptions) :
    sir__is_assignment_char opts '=' = true := by
  simp [sir__is_assignment_char]
lemma is_assignment_colon {opts : SirOptions}
    (h : opts.disableColonAssignment = false) :
    sir__is_assignment_char opts ':' = true := by
  simp [sir__is_assignment_char, h]
lemma skip_to_cons (a : Char) (t : List Char) (c : Char) :
    sir__skip_to_char (a :: t) c
      = if a = c then 0 else sir__skip_to_char t c + 1 := by
  unfold sir__skip_to_char
  rw [List.takeWhile_cons]
  by_cases h : a = c <;> simp [h]
lemma skip_to_le (l : List Char) (c : Char) : sir__skip_to_char l c ≤ l.length := by
  induction l with
  | nil => simp [sir__skip_to_char]
  | cons a t ih =>
    rw [skip_to_cons]
    split
    · exact Nat.zero_le _
    · simpa using Nat.succ_le_succ ih
lemma getD_lt_skip_to {l : List Char} {c : Char} :
    ∀ {j : Nat}, j < sir__skip_to_char l c → l.getD j ' ' ≠ c := by
  induction l with
  | nil => intro j h; simp [sir__skip_to_char] at h
  | cons a t ih =>
    intro j h
    rw [skip_to_cons] at h
    by_cases hac : a = c
    · rw [if_pos hac] at h; omega
    · rw [if_neg hac] at h
      cases j with
      | zero => simpa using hac
      | succ j => exact ih (by omega)
lemma getD_at_skip_to {l : List Char} {c : Char}
    (h : sir__skip_to_char l c < l.length) :
    l.getD (sir__skip_to_char l c) ' ' = c := by
  induction l with
  | nil => simp [sir__skip_to_char] at h
  | cons a t ih =>
    rw [skip_to_cons] at h ⊢
    by_cases hac : a = c
    · rw [if_pos hac]; simpa using hac
    · rw [if_neg hac] at h ⊢
      simpa using ih (by simpa using Nat.lt_of_succ_lt_succ h)
/-- Claim C6: the key name parsed by `sir__parse_to_assignment_char`
ends exactly at the earliest enabled assignment character: with colon
assignment disabled only `'='` delimits, otherwise whichever of `'='`
and `':'` occurs first wins (on a position tie — possible only when
neither occurs — both branches return the same `(-1, whole string)`).
Every character before that position is not an enabled assignment
character, and when the position is inside the string it carries an
enabled assignment character. -/
theorem C6_assignment_char_earliest (opts : SirOptions) (l : List Char) :
    (sir__parse_to_assignment_char opts l =
      if sirAsgPos opts l < l.length
      then ((sirAsgPos opts l : Int), l.take (sirAsgPos opts l))
      else (-1, l))
    ∧ (∀ j < sirAsgPos opts l, sir__is_assignment_char opts (l.getD j ' ') = false)
    ∧ (sirAsgPos opts l < l.length →
        sir__is_assignment_char opts (l.getD (sirAsgPos opts l) ' ') = true) := by
  have parse_eq : ∀ (c : Char), sir__parse_to_char l c =
      if sir__skip_to_char l c < l.length
      then ((sir__skip_to_char l c : Int), l.take (sir__skip_to_char l c))
      else (-1, l) := by
    intro c
    unfold sir__parse_to_char
    rcases Nat.lt_or_eq_of_le (skip_to_le l c) with h | h
    · rw [if_neg (Nat.ne_of_lt h), if_pos h]
    · rw [if_pos h, if_neg (by omega)]
  unfold sirAsgPos sir__parse_to_assignment_char
  by_cases hd : opts.disableColonAssignment
  · rw [if_pos hd, if_pos hd]
    refine ⟨parse_eq '=', ?_, ?_⟩
    · intro j hj
      exact is_assignment_eq_false (getD_lt_skip_to hj) (Or.inl hd)
    · intro h
      rw [getD_at_skip_to h]
      exact is_assignment_equals opts
  · rw [if_neg hd, if_neg hd]
    by_cases hab : sir__skip_to_char l '=' < sir__skip_to_char l ':'
    · rw [if_pos hab, Nat.min_eq_left (Nat.le_of_lt hab)]
      refine ⟨parse_eq '=', ?_, ?_⟩
      · intro j hj
        exact is_assignment_eq_false (getD_lt_skip_to hj)
          (Or.inr (getD_lt_skip_to (Nat.lt_trans hj hab)))
      · intro h
        rw [getD_at_skip_to h]
        exact is_assignment_equals opts
    · rw [if_neg hab, Nat.min_eq_right (Nat.le_of_not_lt hab)]
      refine ⟨parse_eq ':', ?_, ?_⟩
      · intro j hj
        exact is_assignment_eq_false
          (getD_lt_skip_to (Nat.lt_of_lt_of_le hj (Nat.le_of_not_lt hab)))
          (Or.inr (getD_lt_skip_to hj))
      · intro h
        rw [getD_at_skip_to h]
        exact is_assignment_colon (by simpa using hd)
/-- Witness for C6: on `"a:b=c"` with both delimiters enabled the colon
at position 1 wins; position 0 holds no assignment character and the
parse stops at the colon. -/
theorem C6_assignment_char_earliest_witness :
    sir__is_assignment_char {} ("a:b=c".data.getD 0 ' ') = false
    ∧ sir__is_assignment_char {} ("a:b=c".data.getD (sirAsgPos {} "a:b=c".data) ' ') = true :=
  ⟨(C6_assignment_char_earliest {} "a:b=c".data).2.1 0 (by decide),
   (C6_assignment_char_earliest {} "a:b=c".data).2.2 (by decide)⟩
lemma set_error_err {ini : SirIni} {e : SirErrState}
    (h : ini.options.disableErrors = false) :
    (sir__set_error ini e).err = true := by
  simp [sir__set_error, sir__errors_enabled, h]
lemma clear_error_err {ini : SirIni} {e : SirErrState}
    (h : ini.options.disableErrors = false) :
    (sir__clear_error_str ini e).err = false := by
  simp [sir__clear_error_str, sir__errors_enabled, h]
lemma has_error_eq {ini : SirIni} {e : SirErrState}
    (h : ini.options.disableErrors = false) :
    sir_has_error ini e = e.err := by
  simp [sir_has_error, sir__errors_enabled, h]
lemma gscan_spec (ini : SirIni) (k : List Char) :
    ∀ (js : List Nat) (acc : Option (List Char)),
      sir__global_scan ini k js acc =
        (if ini.options.overrideDuplicateKeys
         then (js.filter (fun j => sir__str_equal ini (ini.key_names.getD j []) k)).getLast?
         else (js.filter (fun j => sir__str_equal ini (ini.key_names.getD j []) k)).head?).elim
          acc (fun j => some (ini.key_values.getD j [])) := by
  intro js
  induction js with
  | nil => intro acc; simp [sir__global_scan]
  | cons j js ih =>
    intro acc
    have hfilter : List.filter (fun i => sir__str_equal ini (ini.key_names.getD i []) k) (j :: js)
        = if sir__str_equal ini (ini.key_names.getD j []) k
          then j :: List.filter (fun i => sir__str_equal ini (ini.key_names.getD i []) k) js
          else List.filter (fun i => sir__str_equal ini (ini.key_names.getD i []) k) js := by
      simp [List.filter_cons]
    unfold sir__global_scan
    by_cases hm : sir__str_equal ini (ini.key_names.getD j []) k
    · rw [if_pos hm, hfilter, if_pos hm]
      by_cases ho : ini.options.overrideDuplicateKeys
      · rw [if_pos ho, if_pos ho, ih]
        rw [if_pos ho, show (j :: List.filter
            (fun i => sir__str_equal ini (ini.key_names.getD i []) k) js)
            = [j] ++ List.filter
            (fun i => sir__str_equal ini (ini.key_names.getD i []) k) js from rfl,
          List.getLast?_append]
        cases hl : (List.filter
            (fun i => sir__str_equal ini (ini.key_names.getD i []) k) js).getLast? <;>
          simp [hl]
      · rw [if_neg ho, if_neg ho]
        simp
    · rw [if_neg hm, hfilter, if_neg hm, ih]
lemma sec_str_global (ini : SirIni) (k : List Char) (e : SirErrState) :
    sir_section_str ini none (some k) e =
      match sir__global_scan ini k (List.range ini.key_names.length) none with
      | some v => (some v, sir__clear_error_str ini e)
      | none => (none, sir__set_error ini e) := by
  unfold sir_section_str
  simp
/-- Claim C5: a section-less lookup scans the whole flat key array in
index order: under the default policy it returns the value at the
first matching index, under the override policy the value at the last
matching index, and it returns null with the error slot set (NotFound)
exactly when no index matches. -/
theorem C5_global_lookup_policy (ini : SirIni) (k : List Char) (e : SirErrState)
    (h : ini.options.disableErrors = false) :
    ((sir_section_str ini none (some k) e).1 =
      (if ini.options.overrideDuplicateKeys
       then (sirMatchIdxs ini k).getLast?
       else (sirMatchIdxs ini k).head?).map (fun j => ini.key_values.getD j []))
    ∧ ((sir_section_str ini none (some k) e).1 = none ↔ sirMatchIdxs ini k = [])
    ∧ ((sir_section_str ini none (some k) e).2.err = true ↔ sirMatchIdxs ini k = []) := by
  have hG : sir__global_scan ini k (List.range ini.key_names.length) none =
      (if ini.options.overrideDuplicateKeys
       then (sirMatchIdxs ini k).getLast?
       else (sirMatchIdxs ini k).head?).elim none
        (fun j => some (ini.key_values.getD j [])) :=
    gscan_spec ini k (List.range ini.key_names.length) none
  by_cases ho : ini.options.overrideDuplicateKeys
  · rw [if_pos ho] at hG
    rw [if_pos ho]
    cases hL : (sirMatchIdxs ini k).getLast? with
    | none =>
      rw [hL] at hG
      simp only [Option.elim_none] at hG
      have hMnil : sirMatchIdxs ini k = [] := List.getLast?_eq_none_iff.mp hL
      simp [sec_str_global, hG, hL, hMnil, set_error_err h]
    | some x =>
      rw [hL] at hG
      simp only [Option.elim_some] at hG
      have hMne : sirMatchIdxs ini k ≠ [] := by
        intro hc; rw [hc] at hL; simp at hL
      simp [sec_str_global, hG, hL, hMne, clear_error_err h]
  · rw [if_neg ho] at hG
    rw [if_neg ho]
    cases hL : (sirMatchIdxs ini k).head? with
    | none =>
      rw [hL] at hG
      simp only [Option.elim_none] at hG
      have hMnil : sirMatchIdxs ini k = [] := List.head?_eq_none_iff.mp hL
      simp [sec_str_global, hG, hL, hMnil, set_error_err h]
    | some x =>
      rw [hL] at hG
      simp only [Option.elim_some] at hG
      have hMne : sirMatchIdxs ini k ≠ [] := by
        intro hc; rw [hc] at hL; simp at hL
      simp [sec_str_global, hG, hL, hMne, clear_error_err h]
/-- Witness for C5: the document parsed from `"k=1\n[s]\nk=2\n"` has
`k` at flat indices 0 and 1; the section-less default-policy lookup
returns the first value. -/
theorem C5_global_lookup_policy_witness :
    ((sir_section_str iniC5 none (some "k".data) sirErr0).1 =
      (if iniC5.options.overrideDuplicateKeys
       then (sirMatchIdxs iniC5 "k".data).getLast?
       else (sirMatchIdxs iniC5 "k".data).head?).map (fun j => iniC5.key_values.getD j []))
    ∧ ((sir_section_str iniC5 none (some "k".data) sirErr0).1 = none ↔ sirMatchIdxs iniC5 "k".data = [])
    ∧ ((sir_section_str iniC5 none (some "k".data) sirErr0).2.err = true ↔ sirMatchIdxs iniC5 "k".data = []) :=
  C5_global_lookup_policy iniC5 "k".data sirErr0 (by decide)
lemma splitCommas_ne_nil (s : List Char) : sirSplitCommas s ≠ [] := by
  cases s with
  | nil => simp [sirSplitCommas]
  | cons c t =>
    unfold sirSplitCommas
    split
    · simp
    · split <;> simp
lemma splitCommas_length (s : List Char) :
    (sirSplitCommas s).length = 1 + s.count ',' := by
  induction s with
  | nil => simp [sirSplitCommas]
  | cons c t ih =>
    unfold sirSplitCommas
    by_cases hc : c = ','
    · subst hc
      rw [if_pos rfl]
      simp only [List.length_cons, ih, List.count_cons_self]
      omega
    · rw [if_neg hc]
      cases hs : sirSplitCommas t with
      | nil => exact absurd hs (splitCommas_ne_nil t)
      | cons f rest =>
        rw [hs] at ih
        simp only [List.length_cons] at ih ⊢
        rw [List.count_cons, if_neg (by simp [hc])]
        omega
lemma splitCommas_no_comma {s : List Char} (h : ',' ∉ s) :
    sirSplitCommas s = [s] := by
  induction s with
  | nil => rfl
  | cons c t ih =>
    unfold sirSplitCommas
    rw [if_neg (by intro hc; exact h (hc ▸ List.mem_cons_self c t)),
      ih (fun hm => h (List.mem_cons_of_mem c hm))]
lemma splitCommas_append_cons (pre post : List Char) (h : ',' ∉ pre) :
    sirSplitCommas (pre ++ ',' :: post) = pre :: sirSplitCommas post := by
  induction pre with
  | nil => simp [sirSplitCommas]
  | cons c p ih =>
    have hc : ¬c = ',' := by intro hc; exact h (hc ▸ List.mem_cons_self c p)
    have ih' := ih (fun hm => h (List.mem_cons_of_mem c hm))
    rw [List.cons_append]
    rw [sirSplitCommas]
    rw [if_neg hc, ih']
lemma exists_comma_split {s : List Char} (h : ',' ∈ s) :
    ∃ pre post, s = pre ++ ',' :: post ∧ ',' ∉ pre := by
  induction s with
  | nil => simp at h
  | cons c t ih =>
    by_cases hc : c = ','
    · exact ⟨[], t, by simp [hc], by simp⟩
    · have hm : ',' ∈ t := by
        rcases List.mem_cons.mp h with h1 | h1
        · exact absurd h1.symm hc
        · exact h1
      obtain ⟨pre, post, heq, hnp⟩ := ih hm
      refine ⟨c :: pre, post, by simp [heq], ?_⟩
      intro hm'
      rcases List.mem_cons.mp hm' with h1 | h1
      · exact hc h1.symm
      · exact hnp h1
lemma csv_loop_spec_aux :
    ∀ (n : Nat) (s : List Char), s.count ',' = n →
      sir__csv_loop (1 + n) s
        = (sirSplitCommas s).map (fun f => f.dropWhile sirWs) := by
  intro n
  induction n with
  | zero =>
    intro s hs
    have hnm : ',' ∉ s := List.count_eq_zero.mp hs
    have hnm' : ',' ∉ s.dropWhile sirWs := fun hm =>
      hnm ((List.dropWhile_sublist _).mem hm)
    have hfield0 : (s.dropWhile sirWs).takeWhile (· ≠ ',') = s.dropWhile sirWs := by
      rw [List.takeWhile_eq_self_iff]
      intro x hx
      have hxc : x ≠ ',' := by
        intro hc; rw [hc] at hx; exact hnm' hx
      simpa using hxc
    unfold sir__csv_loop
    unfold sir__csv_loop
    rw [hfield0, splitCommas_no_comma hnm]
    simp
  | succ n ih =>
    intro s hs
    have hmem : ',' ∈ s := by
      by_contra hnm
      rw [List.count_eq_zero.mpr hnm] at hs
      omega
    obtain ⟨pre, post, rfl, hnp⟩ := exists_comma_split hmem
    have hcount : post.count ',' = n := by
      have := hs
      rw [List.count_append, List.count_eq_zero.mpr hnp, List.count_cons] at this
      simpa using this
    have hpre' : ',' ∉ pre.dropWhile sirWs := fun hm =>
      hnp ((List.dropWhile_sublist _).mem hm)
    have hws : (pre ++ ',' :: post).dropWhile sirWs
        = pre.dropWhile sirWs ++ ',' :: post := by
      rw [List.dropWhile_append]
      split
      · next hemp =>
        have hnil : pre.dropWhile sirWs = [] := by simpa using hemp
        rw [hnil, List.dropWhile_cons_of_neg (by simp [sirWs]), List.nil_append]
      · rfl
    have hfield : (pre.dropWhile sirWs ++ ',' :: post).takeWhile (· ≠ ',')
        = pre.dropWhile sirWs := by
      rw [List.takeWhile_append_of_pos
        (fun a ha => by simp; intro hc; exact hpre' (hc ▸ ha))]
      rw [List.takeWhile_cons_of_neg (by simp)]
      simp
    have hdrop : (pre.dropWhile sirWs ++ ',' :: post).drop
        ((pre.dropWhile sirWs).length + 1) = post := by
      rw [show (pre.dropWhile sirWs) ++ ',' :: post
          = ((pre.dropWhile sirWs) ++ [',']) ++ post by simp]
      exact List.drop_left' (by simp)
    rw [show 1 + (n + 1) = (1 + n) + 1 from by omega]
    unfold sir__csv_loop
    rw [hws, hfield, hdrop]
    rw [ih post hcount, splitCommas_append_cons pre post hnp]
    simp
lemma count_comma_dropWhile (u : List Char) :
    (u.dropWhile sirWs).count ',' = u.count ',' := by
  conv_rhs => rw [← List.takeWhile_append_dropWhile sirWs u]
  rw [List.count_append]
  have h0 : (u.takeWhile sirWs).count ',' = 0 := by
    rw [List.count_eq_zero]
    intro hm
    have hp := List.mem_takeWhile_imp hm
    simp [sirWs] at hp
  omega
lemma count_comma_trim (u : List Char) :
    (sir__trim_whitespace u).count ',' = u.count ',' := by
  unfold sir__trim_whitespace
  rw [List.count_reverse, count_comma_dropWhile, List.count_reverse,
    count_comma_dropWhile]
/-- Claim C7 (counterexample): the CSV split of the looked-up value
`"a, b ,c"` yields `["a", "b ", "c"]` — the middle field keeps the
whitespace *before* its comma, because only each field's leading
whitespace is skipped — and not `["a", "b", "c"]` as claimed. -/
theorem C7_csv_example_counterexample :
    (sir_section_csv (sir_load_from_str "k=\"a, b ,c\"\n".data {})
        none (some "k".data) sirErr0).1
      = some ["a".data, "b ".data, "c".data]
    ∧ (["a".data, "b ".data, "c".data] : List (List Char))
        ≠ ["a".data, "b".data, "c".data] := by
  decide
/-- Claim C7 (amended): `sir_section_csv` splits the trimmed value on
`','` and strips each field's *leading* whitespace only (trailing
whitespace before a comma is kept); it always yields at least one
field, and the reported size is one plus the number of commas in the
value; the split of the looked-up value `"a, b ,c"` is
`["a", "b ", "c"]`. -/
theorem C7_csv_split_amended :
    (∀ v : List Char, sir__csv_split v
        = (sirSplitCommas (sir__trim_whitespace (v.dropWhile sirWs))).map
            (fun f => f.dropWhile sirWs))
    ∧ (∀ v : List Char, (sir__csv_split v).length = 1 + v.count ',')
    ∧ (∀ v : List Char, 1 ≤ (sir__csv_split v).length)
    ∧ (sir_section_csv (sir_load_from_str "k=\"a, b ,c\"\n".data {})
        none (some "k".data) sirErr0).1
      = some ["a".data, "b ".data, "c".data] := by
  have h1 : ∀ v : List Char, sir__csv_split v
      = (sirSplitCommas (sir__trim_whitespace (v.dropWhile sirWs))).map
          (fun f => f.dropWhile sirWs) := by
    intro v
    unfold sir__csv_split
    exact csv_loop_spec_aux _ _ rfl
  have h2 : ∀ v : List Char, (sir__csv_split v).length = 1 + v.count ',' := by
    intro v
    rw [h1, List.length_map, splitCommas_length, count_comma_trim,
      count_comma_dropWhile]
  refine ⟨h1, h2, fun v => ?_, by decide⟩
  rw [h2]
  omega
lemma sec_str_master (ini : SirIni) (sn kn : Option (List Char))
    (h : ini.options.disableErrors = false) (e : SirErrState) :
    (sir_section_str ini sn kn e).1 = (sir_section_str ini sn kn sirErr0).1
    ∧ (sir_section_str ini sn kn e).2.err
        = ((sir_section_str ini sn kn sirErr0).1).isNone := by
  cases kn with
  | none => constructor <;> simp [sir_section_str, set_error_err h]
  | some k =>
    cases sn with
    | none =>
      rw [sec_str_global, sec_str_global]
      cases hg : sir__global_scan ini k (List.range ini.key_names.length) none <;>
        simp [set_error_err h, clear_error_err h]
    | some nm =>
      simp only [sir_section_str, sir__get_section]
      cases hf : (List.range ini.section_names.length).find?
          (fun i => sir__str_equal ini (ini.section_names.getD i []) nm) with
      | none =>
        constructor <;> simp [has_error_eq h, set_error_err h]
      | some si =>
        cases hr : sir__find_in_ranges ini k (ini.sections.getD si ⟨[]⟩).ranges with
        | none =>
          rw [List.getD_eq_getElem?_getD] at hr
          constructor <;>
            simp [hr, has_error_eq h, set_error_err h, clear_error_err h]
        | some j =>
          rw [List.getD_eq_getElem?_getD] at hr
          constructor <;>
            simp [hr, has_error_eq h, set_error_err h, clear_error_err h]
lemma long_master (ini : SirIni) (sn kn : Option (List Char))
    (h : ini.options.disableErrors = false) (e : SirErrState) :
    (sir_section_long ini sn kn e).1 = (sirLongSpec ini sn kn).1
    ∧ (sir_section_long ini sn kn e).2.err = (sirLongSpec ini sn kn).2 := by
  obtain ⟨hA, hB⟩ := sec_str_master ini sn kn h e
  simp only [sir_section_long, sirLongSpec]
  cases hres : (sir_section_str ini sn kn sirErr0).1 with
  | none =>
    rw [hres] at hA hB
    constructor <;> simp [has_error_eq h, hA, hB]
  | some v =>
    rw [hres] at hA hB
    have hcond' : ¬((sir_has_error ini (sir_section_str ini sn kn e).2
        || (sir_section_str ini sn kn e).1.isNone) = true) := by
      rw [has_error_eq h, hA, hB]; exact Bool.false_ne_true
    constructor
    · rw [if_neg hcond', hA]
      by_cases h1 : (sir_strtol v).2.1
      · simp [h1]
      · by_cases h2 : (sir_strtol v).1 <;> simp [h1, h2]
    · rw [if_neg hcond', hA]
      by_cases h1 : (sir_strtol v).2.1
      · simp [h1, set_error_err h]
      · by_cases h2 : (sir_strtol v).1
        · simp [h1, h2, hB]
        · simp [h1, h2, set_error_err h]
lemma ulong_master (ini : SirIni) (sn kn : Option (List Char))
    (h : ini.options.disableErrors = false) (e : SirErrState) :
    (sir_section_unsigned_long ini sn kn e).1 = (sirULongSpec ini sn kn).1
    ∧ (sir_section_unsigned_long ini sn kn e).2.err = (sirULongSpec ini sn kn).2 := by
  obtain ⟨hA, hB⟩ := sec_str_master ini sn kn h e
  simp only [sir_section_unsigned_long, sirULongSpec]
  cases hres : (sir_section_str ini sn kn sirErr0).1 with
  | none =>
    rw [hres] at hA hB
    constructor <;> simp [has_error_eq h, hA, hB]
  | some v =>
    rw [hres] at hA hB
    have hcond' : ¬((sir_has_error ini (sir_section_str ini sn kn e).2
        || (sir_section_str ini sn kn e).1.isNone) = true) := by
      rw [has_error_eq h, hA, hB]; exact Bool.false_ne_true
    constructor
    · rw [if_neg hcond', hA]
      by_cases h1 : (sir_strtoul v).2.1
      · simp [h1]
      · by_cases h2 : (sir_strtoul v).1 <;> simp [h1, h2]
    · rw [if_neg hcond', hA]
      by_cases h1 : (sir_strtoul v).2.1
      · simp [h1, set_error_err h]
      · by_cases h2 : (sir_strtoul v).1
        · simp [h1, h2, hB]
        · simp [h1, h2, set_error_err h]
lemma csv_master (ini : SirIni) (sn kn : Option (List Char))
    (h : ini.options.disableErrors = false) (e : SirErrState) :
    (sir_section_csv ini sn kn e).1 = (sirCsvSpec ini sn kn).1
    ∧ (sir_section_csv ini sn kn e).2.err = (sirCsvSpec ini sn kn).2 := by
  obtain ⟨hA, hB⟩ := sec_str_master ini sn kn h e
  simp only [sir_section_csv, sirCsvSpec]
  cases hres : (sir_section_str ini sn kn sirErr0).1 with
  | none =>
    rw [hres] at hA hB
    constructor <;> simp [has_error_eq h, hA, hB]
  | some v =>
    rw [hres] at hA hB
    have hcond' : ¬((sir_has_error ini (sir_section_str ini sn kn e).2
        || (sir_section_str ini sn kn e).1.isNone) = true) := by
      rw [has_error_eq h, hA, hB]; exact Bool.false_ne_true
    constructor
    · rw [if_neg hcond', hA]
      rfl
    · rw [if_neg hcond', hB]
      rfl
lemma bool_master (ini : SirIni) (sn kn : Option (List Char))
    (h : ini.options.disableErrors = false) (e : SirErrState) :
    (sir_section_bool ini sn kn e).1 = (sirBoolSpec ini sn kn).1
    ∧ (sir_section_bool ini sn kn e).2.err = (sirBoolSpec ini sn kn).2 := by
  obtain ⟨hL1, hL2⟩ := long_master ini sn kn h e
  obtain ⟨hS1, hS2⟩ := sec_str_master ini sn kn h (sir_section_long ini sn kn e).2
  simp only [sir_section_bool, sirBoolSpec]
  cases hres : (sir_section_str ini sn kn sirErr0).1 with
  | none =>
    rw [hres] at hS1 hS2
    have hl2 : (sir_section_long ini sn kn e).2.err = true := by
      rw [hL2]; simp [sirLongSpec, hres]
    have hc1 : ¬((!sir_has_error ini (sir_section_long ini sn kn e).2) = true) := by
      rw [has_error_eq h, hl2]; simp
    rw [if_neg hc1]
    have hc2 : (sir_has_error ini
          (sir_section_str ini sn kn (sir_section_long ini sn kn e).2).2
        || (sir_section_str ini sn kn (sir_section_long ini sn kn e).2).1.isNone) = true := by
      rw [has_error_eq h, hS2]; rfl
    rw [if_pos hc2]
    exact ⟨rfl, by rw [hS2]; rfl⟩
  | some v =>
    rw [hres] at hS1 hS2
    by_cases h1 : (sir_strtol v).2.1 = true
    · have hlf : ((sir_strtol v).2.1 || !(sir_strtol v).1) = true := by simp [h1]
      have hl2 : (sir_section_long ini sn kn e).2.err = true := by
        rw [hL2]; simp [sirLongSpec, hres, hlf]
      have hc1 : ¬((!sir_has_error ini (sir_section_long ini sn kn e).2) = true) := by
        rw [has_error_eq h, hl2]; simp
      have hc2 : ¬((sir_has_error ini
            (sir_section_str ini sn kn (sir_section_long ini sn kn e).2).2
          || (sir_section_str ini sn kn (sir_section_long ini sn kn e).2).1.isNone) = true) := by
        rw [has_error_eq h, hS2, hS1]; simp
      rw [if_neg hc1, if_neg hc2, hS1]
      by_cases hb : sir__bool_from_str v = -1
      · constructor <;> simp [hb, hlf, set_error_err h]
      · constructor <;> simp [hb, hlf, hS2]
    · by_cases h2 : (sir_strtol v).1 = true
      · have hl2 : (sir_section_long ini sn kn e).2.err = false := by
          rw [hL2]; simp [sirLongSpec, hres, h1, h2]
        have hc1 : ((!sir_has_error ini (sir_section_long ini sn kn e).2) = true) := by
          rw [has_error_eq h, hl2]; simp
        rw [if_pos hc1]
        constructor
        · rw [hL1]
          simp [sirLongSpec, hres, h1, h2]
        · rw [hl2]
          simp [h1, h2]
      · have hlf : ((sir_strtol v).2.1 || !(sir_strtol v).1) = true := by simp [h2]
        have hl2 : (sir_section_long ini sn kn e).2.err = true := by
          rw [hL2]; simp [sirLongSpec, hres, hlf]
        have hc1 : ¬((!sir_has_error ini (sir_section_long ini sn kn e).2) = true) := by
          rw [has_error_eq h, hl2]; simp
        have hc2 : ¬((sir_has_error ini
              (sir_section_str ini sn kn (sir_section_long ini sn kn e).2).2
            || (sir_section_str ini sn kn (sir_section_long ini sn kn e).2).1.isNone) = true) := by
          rw [has_error_eq h, hS2, hS1]; simp
        rw [if_neg hc1, if_neg hc2, hS1]
        by_cases hb : sir__bool_from_str v = -1
        · constructor <;> simp [hb, hlf, set_error_err h]
        · constructor <;> simp [hb, hlf, hS2]
lemma karr_master (ini : SirIni) (sn : Option (List Char))
    (arr : List (List Char)) (h : ini.options.disableErrors = false)
    (e : SirErrState) :
    (sir__section_key_array ini sn arr e).1
      = (sir__section_key_array ini sn arr sirErr0).1
    ∧ (sir__section_key_array ini sn arr e).2.err
      = ((sir__section_key_array ini sn arr sirErr0).1).isNone := by
  cases sn with
  | none => constructor <;> simp [sir__section_key_array, set_error_err h]
  | some nm =>
    simp only [sir__section_key_array, sir__get_section]
    cases hf : (List.range ini.section_names.length).find?
        (fun i => sir__str_equal ini (ini.section_names.getD i []) nm) with
    | none =>
      constructor <;> simp [has_error_eq h, set_error_err h]
    | some si =>
      constructor <;>
        simp [has_error_eq h, set_error_err h, clear_error_err h]
/-- Claim C8 (counterexample): on a document parsed from `"k=xyz\n"`
(error tracking enabled), one call of `sir_section_bool` writes the
error slot four times — clear, set (failed numeric conversion), clear
(successful re-lookup), set (failed literal match) — so the slot is
*set twice* during a single operation, refuting "cleared on entry and
set at most once before returning". -/
theorem C8_error_set_twice_counterexample :
    ((sir_section_bool (sir_load_from_str "k=xyz\n".data {})
        none (some "k".data) sirErr0).2.trace
      = [.clear, .set, .clear, .set])
    ∧ ((sir_section_bool (sir_load_from_str "k=xyz\n".data {})
        none (some "k".data) sirErr0).2.trace.count SirErrEvent.set = 2) := by
  decide
/-- Claim C8 (amended): for a Document with error tracking enabled,
every failable operation's result and final error state are
independent of whatever error a previous call left in the slot, and
after the call `sir_has_error` holds if and only if the operation
failed (lookup returned null; numeric conversion hit a range error or
consumed no digits; bool conversion returned `-1`).  Within one call
the slot may be written more than once (see the counterexample); only
the final state obeys the success/failure contract. -/
theorem C8_error_slot_amended (ini : SirIni) (sn kn : Option (List Char))
    (e e' : SirErrState) (h : ini.options.disableErrors = false) :
    ((sir_section_str ini sn kn e).1 = (sir_section_str ini sn kn e').1
      ∧ (sir_section_str ini sn kn e).2.err = (sir_section_str ini sn kn e').2.err)
    ∧ ((sir_section_long ini sn kn e).1 = (sir_section_long ini sn kn e').1
      ∧ (sir_section_long ini sn kn e).2.err = (sir_section_long ini sn kn e').2.err)
    ∧ ((sir_section_unsigned_long ini sn kn e).1 = (sir_section_unsigned_long ini sn kn e').1
      ∧ (sir_section_unsigned_long ini sn kn e).2.err
          = (sir_section_unsigned_long ini sn kn e').2.err)
    ∧ ((sir_section_bool ini sn kn e).1 = (sir_section_bool ini sn kn e').1
      ∧ (sir_section_bool ini sn kn e).2.err = (sir_section_bool ini sn kn e').2.err)
    ∧ ((sir_section_csv ini sn kn e).1 = (sir_section_csv ini sn kn e').1
      ∧ (sir_section_csv ini sn kn e).2.err = (sir_section_csv ini sn kn e').2.err)
    ∧ ((sir_section_key_names ini sn e).1 = (sir_section_key_names ini sn e').1
      ∧ (sir_section_key_names ini sn e).2.err = (sir_section_key_names ini sn e').2.err)
    ∧ ((sir_section_key_values ini sn e).1 = (sir_section_key_values ini sn e').1
      ∧ (sir_section_key_values ini sn e).2.err = (sir_section_key_values ini sn e').2.err)
    ∧ ((sir_section_str ini sn kn e).2.err = true ↔ (sir_section_str ini sn kn e).1 = none)
    ∧ ((sir_section_long ini sn kn e).2.err = true ↔
        ((sir_section_str ini sn kn e).1 = none
          ∨ ∃ v, (sir_section_str ini sn kn e).1 = some v
              ∧ ((sir_strtol v).2.1 = true ∨ (sir_strtol v).1 = false)))
    ∧ ((sir_section_unsigned_long ini sn kn e).2.err = true ↔
        ((sir_section_str ini sn kn e).1 = none
          ∨ ∃ v, (sir_section_str ini sn kn e).1 = some v
              ∧ ((sir_strtoul v).2.1 = true ∨ (sir_strtoul v).1 = false)))
    ∧ ((sir_section_bool ini sn kn e).2.err = true ↔ (sir_section_bool ini sn kn e).1 = -1)
    ∧ ((sir_section_csv ini sn kn e).2.err = true ↔ (sir_section_csv ini sn kn e).1 = none)
    ∧ ((sir_section_key_names ini sn e).2.err = true ↔ (sir_section_key_names ini sn e).1 = none)
    ∧ ((sir_section_key_values ini sn e).2.err = true
        ↔ (sir_section_key_values ini sn e).1 = none) := by
  obtain ⟨hs1, hs2⟩ := sec_str_master ini sn kn h e
  obtain ⟨hs1', hs2'⟩ := sec_str_master ini sn kn h e'
  obtain ⟨hl1, hl2⟩ := long_master ini sn kn h e
  obtain ⟨hl1', hl2'⟩ := long_master ini sn kn h e'
  obtain ⟨hu1, hu2⟩ := ulong_master ini sn kn h e
  obtain ⟨hu1', hu2'⟩ := ulong_master ini sn kn h e'
  obtain ⟨hb1, hb2⟩ := bool_master ini sn kn h e
  obtain ⟨hb1', hb2'⟩ := bool_master ini sn kn h e'
  obtain ⟨hc1, hc2⟩ := csv_master ini sn kn h e
  obtain ⟨hc1', hc2'⟩ := csv_master ini sn kn h e'
  obtain ⟨hn1, hn2⟩ := karr_master ini sn ini.key_names h e
  obtain ⟨hn1', hn2'⟩ := karr_master ini sn ini.key_names h e'
  obtain ⟨hv1, hv2⟩ := karr_master ini sn ini.key_values h e
  obtain ⟨hv1', hv2'⟩ := karr_master ini sn ini.key_values h e'
  refine ⟨⟨hs1.trans hs1'.symm, hs2.trans hs2'.symm⟩,
    ⟨hl1.trans hl1'.symm, hl2.trans hl2'.symm⟩,
    ⟨hu1.trans hu1'.symm, hu2.trans hu2'.symm⟩,
    ⟨hb1.trans hb1'.symm, hb2.trans hb2'.symm⟩,
    ⟨hc1.trans hc1'.symm, hc2.trans hc2'.symm⟩,
    ⟨hn1.trans hn1'.symm, hn2.trans hn2'.symm⟩,
    ⟨hv1.trans hv1'.symm, hv2.trans hv2'.symm⟩,
    ?_, ?_, ?_, ?_, ?_, ?_, ?_⟩
  · rw [hs1, hs2]
    exact Option.isNone_iff_eq_none
  · rw [hl2, hs1]
    cases hres : (sir_section_str ini sn kn sirErr0).1 with
    | none => simp [sirLongSpec, hres]
    | some v => simp [sirLongSpec, hres]
  · rw [hu2, hs1]
    cases hres : (sir_section_str ini sn kn sirErr0).1 with
    | none => simp [sirULongSpec, hres]
    | some v => simp [sirULongSpec, hres]
  · rw [hb2, hb1]
    cases hres : (sir_section_str ini sn kn sirErr0).1 with
    | none => simp [sirBoolSpec, hres]
    | some v =>
      simp only [sirBoolSpec, hres]
      by_cases h1 : ((sir_strtol v).2.1 || !(sir_strtol v).1) = true
      · by_cases hb : sir__bool_from_str v = -1 <;> simp [h1, hb]
      · have h1' : ((sir_strtol v).2.1 || !(sir_strtol v).1) = false := by
          revert h1; cases ((sir_strtol v).2.1 || !(sir_strtol v).1) <;> simp
        simp only [h1', Bool.not_false, if_true]
        constructor
        · intro hfalse; simp at hfalse
        · intro hval
          exfalso
          revert hval
          split <;> simp
  · rw [hc2, hc1]
    cases hres : (sir_section_str ini sn kn sirErr0).1 with
    | none => simp [sirCsvSpec, hres]
    | some v => simp [sirCsvSpec, hres]
  · simp only [sir_section_key_names]
    rw [hn2, hn1]
    exact Option.isNone_iff_eq_none
  · simp only [sir_section_key_values]
    rw [hv2, hv1]
    exact Option.isNone_iff_eq_none
/-- Witness for C8 (amended): applied to the document parsed from
`"k=12\n"` and a stale error state, the bool conversion's final state
obeys the iff contract. -/
theorem C8_error_slot_amended_witness :
    (sir_section_bool (sir_load_from_str "k=12\n".data {})
        none (some "k".data) sirErr0).2.err = true
      ↔ (sir_section_bool (sir_load_from_str "k=12\n".data {})
          none (some "k".data) sirErr0).1 = -1 :=
  (C8_error_slot_amended (sir_load_from_str "k=12\n".data {})
    none (some "k".data) sirErr0 ⟨true, [.set]⟩ (by decide)).2.2.2.2.2.2.2.2.2.2.1
lemma ciPrefixOf_eq_take (p s : List Char) :
    sirCIPrefixOf p s = sir__str_equal_case (s.take p.length) p true := by
  induction p generalizing s with
  | nil => simp [sirCIPrefixOf, sir__str_equal_case]
  | cons c p ih =>
    cases s with
    | nil => simp [sirCIPrefixOf, sir__str_equal_case]
    | cons d s =>
      simp only [sirCIPrefixOf, List.map_cons, List.isPrefixOf, List.length_cons,
        List.take_succ_cons, sir__str_equal_case, if_true]
      rw [show (List.map sir__to_lowercase p).isPrefixOf (List.map sir__to_lowercase s)
          = sir__str_equal_case (s.take p.length) p true from ih s]
      cases hde : decide (sir__to_lowercase d = sir__to_lowercase c) with
      | true =>
        have hde' := of_decide_eq_true hde
        simp [beq_iff_eq, hde']
      | false =>
        have hde' := of_decide_eq_false hde
        simp [beq_iff_eq, Ne.symm hde']
lemma bool_from_str_by_prefixes (v : List Char) :
    sir__bool_from_str v =
      (if sirCIPrefixOf "true".data (v.dropWhile sirWs) then 1
       else if sirCIPrefixOf "false".data (v.dropWhile sirWs) then 0
       else -1) := by
  unfold sir__bool_from_str
  rw [ciPrefixOf_eq_take, ciPrefixOf_eq_take]
  rfl
lemma ciPrefix_mutex (t : List Char) :
    sirCIPrefixOf "true".data t = true → sirCIPrefixOf "false".data t = true → False := by
  intro h1 h2
  unfold sirCIPrefixOf at h1 h2
  cases t with
  | nil => revert h1; decide
  | cons c t =>
    rw [show "true".data.map sir__to_lowercase = ['T', 'R', 'U', 'E'] from by decide,
      List.map_cons] at h1
    rw [show "false".data.map sir__to_lowercase = ['F', 'A', 'L', 'S', 'E'] from by decide,
      List.map_cons] at h2
    simp only [List.isPrefixOf, Bool.and_eq_true, beq_iff_eq] at h1 h2
    rw [← h1.1] at h2
    exact absurd h2.1 (by decide)
lemma strtol_not_consumed {v : List Char}
    (hnum : sir_strtol v = (false, false, 0)) :
    ((sir_strtol v).2.1 || !(sir_strtol v).1) = true := by
  rw [hnum]
  rfl
/-- Claim C9 (counterexample): on a document with error tracking
*disabled*, `sir_section_bool` never reaches the literal-matching
stage (its `sir_has_error` guard is constantly false, so the failed
numeric conversion's 0 is returned as the boolean): the value
`"TrueXYZ"` — whose first characters spell `true` case-insensitively
and which does not begin with a parseable number — yields `0`, not the
claimed `1`. -/
theorem C9_bool_disabled_errors_counterexample :
    sir_strtol "TrueXYZ".data = (false, false, 0)
    ∧ sirCIPrefixOf "true".data "TrueXYZ".data = true
    ∧ (sir_section_bool
        (sir_load_from_str "k=TrueXYZ\n".data { disableErrors := true })
        none (some "k".data) sirErr0).1 = 0 := by
  decide
/-- Claim C9 (amended, for documents with error tracking enabled): when
the looked-up value does not begin with a parseable number (`strtol`
consumes nothing), `sir_section_bool` matches the boolean literals by
*prefix*: it returns `1` when the value's first non-whitespace
characters spell `"true"` case-insensitively (whatever follows), `0`
when they spell `"false"`, and only if neither prefix matches does it
set the conversion error and return `-1`. -/
theorem C9_bool_prefix_amended (ini : SirIni) (sn kn : Option (List Char))
    (e : SirErrState) (v : List Char)
    (h : ini.options.disableErrors = false)
    (hv : (sir_section_str ini sn kn sirErr0).1 = some v)
    (hnum : sir_strtol v = (false, false, 0)) :
    (sirCIPrefixOf "true".data (v.dropWhile sirWs) = true →
      (sir_section_bool ini sn kn e).1 = 1)
    ∧ (sirCIPrefixOf "false".data (v.dropWhile sirWs) = true →
      (sir_section_bool ini sn kn e).1 = 0)
    ∧ (sirCIPrefixOf "true".data (v.dropWhile sirWs) = false →
      sirCIPrefixOf "false".data (v.dropWhile sirWs) = false →
      (sir_section_bool ini sn kn e).1 = -1
        ∧ (sir_section_bool ini sn kn e).2.err = true) := by
  obtain ⟨hb1, hb2⟩ := bool_master ini sn kn h e
  have hlf := strtol_not_consumed hnum
  have hspec1 : (sirBoolSpec ini sn kn).1
      = (if sir__bool_from_str v = -1 then (-1 : Int) else sir__bool_from_str v) := by
    by_cases hb : sir__bool_from_str v = -1 <;> simp [sirBoolSpec, hv, hlf, hb]
  have hspec2 : (sirBoolSpec ini sn kn).2 = decide (sir__bool_from_str v = -1) := by
    by_cases hb : sir__bool_from_str v = -1 <;> simp [sirBoolSpec, hv, hlf, hb]
  rw [hb1, hb2, hspec1, hspec2, bool_from_str_by_prefixes]
  refine ⟨?_, ?_, ?_⟩
  · intro htrue
    simp [htrue]
  · intro hfalse
    have htrue : sirCIPrefixOf "true".data (v.dropWhile sirWs) = false := by
      cases hx : sirCIPrefixOf "true".data (v.dropWhile sirWs) with
      | false => rfl
      | true => exact (ciPrefix_mutex _ hx hfalse).elim
    simp [htrue, hfalse]
  · intro htrue hfalse
    simp [htrue, hfalse]
/-- Witness for C9 (amended): on the document parsed from
`"k=TrueXYZ\n"` with default options, the bool conversion returns 1. -/
theorem C9_bool_prefix_amended_witness :
    (sir_section_bool (sir_load_from_str "k=TrueXYZ\n".data {})
        none (some "k".data) sirErr0).1 = 1 :=
  (C9_bool_prefix_amended (sir_load_from_str "k=TrueXYZ\n".data {})
    none (some "k".data) sirErr0 "TrueXYZ".data
    (by decide) (by decide) (by decide)).1 (by decide)
lemma close_range_names (st : ParseState) :
    (sir__close_range st).section_names = st.section_names := rfl
lemma key_step_names (opts : SirOptions) (st : ParseState)
    (kn kv : List Char) (dup : Option Nat) :
    (sir__key_step opts st kn kv dup).section_names = st.section_names := by
  unfold sir__key_step
  split
  · rfl
  · split
    · split <;> rfl
    · rfl
lemma listModify_length {α : Type} (l : List α) (i : Nat) (f : α → α) :
    (listModify l i f).length = l.length := by
  induction l generalizing i with
  | nil => rfl
  | cons x xs ih =>
    cases i with
    | zero => rfl
    | succ n => simpa [listModify] using ih n
lemma header_step_no_new_section (opts : SirOptions) (st : ParseState)
    (nm : List Char) (d : Nat)
    (hd : sir__find_dup_section opts st.section_names nm = some d) :
    (sir__header_step opts st nm).section_names = st.section_names
    ∧ (sir__header_step opts st nm).sections.length = st.sections.length := by
  unfold sir__header_step
  rw [hd]
  split
  · rename_i d' heq
    obtain rfl : d = d' := by injection heq
    by_cases hdp : d ≠ st.prev_index
    · rw [if_pos hdp]
      exact ⟨rfl, by simp [appendRangeAt, listModify_length]⟩
    · rw [if_neg hdp]
      exact ⟨rfl, rfl⟩
  · rename_i heq
    exact absurd heq (by simp)
lemma header_step_inv (opts : SirOptions) (st : ParseState) (nm : List Char)
    (hq : NamesInv opts st.section_names) :
    NamesInv opts (sir__header_step opts st nm).section_names := by
  cases hd : sir__find_dup_section opts st.section_names nm with
  | some d =>
    rw [(header_step_no_new_section opts st nm d hd).1]
    exact hq
  | none =>
    have hnames : (sir__header_step opts st nm).section_names
        = st.section_names ++ [nm] := by
      unfold sir__header_step
      rw [hd]
    rw [hnames]
    have hne : st.section_names ≠ [] := by
      intro hnil
      rw [hnil] at hq
      exact absurd hq.1 (by decide)
    have hpos : 0 < st.section_names.length := List.length_pos.mpr hne
    have hall : ∀ i < st.section_names.length,
        sir__str_equal_opt opts (st.section_names.getD i []) nm = false := by
      rw [sir__find_dup_section] at hd
      exact (find?_range_eq_none_iff _ _).mp hd
    constructor
    · rw [List.getD_eq_getElem?_getD, List.getElem?_append_left hpos,
        ← List.getD_eq_getElem?_getD]
      exact hq.1
    · intro i hi0 hilen
      rcases Nat.lt_or_ge i st.section_names.length with hlt | hge
      · rw [List.getD_eq_getElem?_getD, List.getElem?_append_left hlt,
          ← List.getD_eq_getElem?_getD]
        exact hq.2 i hi0 hlt
      · have hieq : i = st.section_names.length := by
          simp only [List.length_append, List.length_singleton] at hilen
          omega
        subst hieq
        rw [List.getD_eq_getElem?_getD, List.getElem?_concat_length]
        have h0 := hall 0 hpos
        rw [hq.1] at h0
        exact h0
lemma parse_loop_names_inv (opts : SirOptions) (fuel : Nat) :
    ∀ (l : List Char) (st : ParseState),
      NamesInv opts st.section_names →
      NamesInv opts (sir__parse_loop opts fuel l st).section_names := by
  induction fuel with
  | zero => exact fun l st hq => hq
  | succ fuel ih =>
    intro l st hq
    rw [sir__parse_loop]
    split
    · exact hq
    · rename_i c t heq
      by_cases hc : c = '['
      · rw [if_pos hc]
        have hq1 : NamesInv opts (sir__header_step opts (sir__close_range st)
            (sir__trim_whitespace (sir__parse_to_char t ']').2)).section_names :=
          header_step_inv opts (sir__close_range st) _
            (by rw [close_range_names]; exact hq)
        by_cases hp : (sir__parse_to_char t ']').1 = -1
        · rw [if_pos hp]
          exact hq1
        · rw [if_neg hp]
          exact ih _ _ hq1
      · rw [if_neg hc]
        have hq2 : ∀ kn kv dup, NamesInv opts
            (sir__key_step opts st kn kv dup).section_names := by
          intro kn kv dup
          rw [key_step_names]
          exact hq
        by_cases hp : (sir__parse_to_assignment_char opts (c :: t)).1 = -1
        · rw [if_pos hp]
          exact hq2 _ _ _
        · rw [if_neg hp]
          exact ih _ _ (hq2 _ _ _)
lemma load_names_inv (s : List Char) (opts : SirOptions) :
    NamesInv opts (sir_load_from_str s opts).section_names := by
  have h0 : NamesInv opts
      (({ sections := [⟨[⟨0, 0⟩]⟩], section_names := ["global".data],
          key_names := [], key_values := [], prev_index := 0 } : ParseState)).section_names := by
    constructor
    · rfl
    · intro i hi0 hilen
      simp at hilen
      omega
  simp only [sir_load_from_str]
  rw [close_range_names]
  exact parse_loop_names_inv opts _ _ _ h0
/-- C10: a `[global]` header never creates a new section.  In every
parsed document the reserved name `"global"` is the section name at
index 0 and no other section name compares equal to it under the
document's options (so the built-in global section stays at index 0
and is the only section named `global`).  Concretely, parsing
`"a=1\n[ global ]\nb=2\n"` yields a single section (the header
reopens the still-open global section, which keeps one contiguous
range) and both `a` (before the header) and `b` (under the explicit
header) are visible to a section-scoped lookup of `"global"`. -/
theorem C10_global_section_invariant :
    (∀ (s : List Char) (opts : SirOptions),
        (sir_load_from_str s opts).section_names.getD 0 [] = "global".data)
    ∧ (∀ (s : List Char) (opts : SirOptions) (i : Nat),
        0 < i → i < (sir_load_from_str s opts).section_names.length →
        sir__str_equal_opt opts ("global".data)
          ((sir_load_from_str s opts).section_names.getD i []) = false)
    ∧ ((sir_load_from_str "a=1\n[ global ]\nb=2\n".data {}).section_names
          = ["global".data]
        ∧ ((sir_load_from_str "a=1\n[ global ]\nb=2\n".data {}).sections.getD 0
            ⟨[]⟩).ranges.length = 1
        ∧ (sir_section_str (sir_load_from_str "a=1\n[ global ]\nb=2\n".data {})
            (some "global".data) (some "a".data) sirErr0).1 = some "1".data
        ∧ (sir_section_str (sir_load_from_str "a=1\n[ global ]\nb=2\n".data {})
            (some "global".data) (some "b".data) sirErr0).1 = some "2".data) :=
  ⟨fun s opts => (load_names_inv s opts).1,
   fun s opts i hi0 hilen => (load_names_inv s opts).2 i hi0 hilen,
   by decide, by decide, by decide, by decide⟩
/-- Witness for C10: on the input `"[x]\n"` the section at index 1 is
`x`, which indeed does not compare equal to `"global"`. -/
theorem C10_global_section_invariant_witness :
    0 < 1
    ∧ 1 < (sir_load_from_str "[x]\n".data {}).section_names.length
    ∧ sir__str_equal_opt {} ("global".data)
        ((sir_load_from_str "[x]\n".data {}).section_names.getD 1 []) = false :=
  ⟨by decide, by decide,
   C10_global_section_invariant.2.1 "[x]\n".data {} 1 (by decide) (by decide)⟩
